import Mathlib

/-!
# dynamic-watcher: webhook reconciliation

A shallow embedding of `controllers/webhook_controller.go` and `pkg/types/*.go`.

* Go strings are Lean strings, slices are lists, maps are association lists
  in the order of the literal that builds them (lookup takes the first entry).
* `interface{}` values and unstructured cluster objects are JSON trees.
* The cluster store (`client.Client`), the repository host (`Repository`), the
  event recorder and `encoding/json` are collaborators of the reconciler: the
  first three are fields of the reconciler, the last one is the `Codec`
  argument.  The repository host is stateful, so its state is passed
  explicitly.
* Every call to a collaborator is recorded, in order, in a list of `Effect`s.
-/

set_option autoImplicit false

namespace DynamicWatcher

/-! ## Values -/

/-- A JSON document; also the dynamic content of a Go `interface{}` that was
decoded from JSON (`null` is the nil interface). -/
inductive JSON where
  | null
  | bool (b : Bool)
  | num (n : Int)
  | str (s : String)
  | arr (items : List JSON)
  | obj (fields : List (String × JSON))

/-- The Go `error` values that reach the reconciler: an API status error with
reason NotFound, any other error, and `fmt.Errorf("<msg>: %w", err)`. -/
inductive Error where
  | notFound (msg : String)
  | other (msg : String)
  | wrap (msg : String) (err : Error)
  deriving DecidableEq, Repr

/-- Go `err.Error()`. -/
def Error.text : Error → String
  | .notFound msg => msg
  | .other msg => msg
  | .wrap msg err => msg ++ ": " ++ err.text

/-- Go `apierrors.IsNotFound`: looks through wrapped errors (`errors.As`). -/
def IsNotFound : Error → Bool
  | .notFound _ => true
  | .other _ => false
  | .wrap _ err => IsNotFound err

/-- Go `client.IgnoreNotFound`: nil for a not-found error, the error otherwise. -/
def IgnoreNotFound (err : Error) : Option Error :=
  if IsNotFound err then none else some err

/-- Go `github.Hook`, with the fields this repository reads or writes.
`Active` and `Name` are pointers in Go, `Config` is a `map[string]interface{}`. -/
structure Hook where
  Name : Option String := none
  URL : Option String := none
  Events : List String := []
  Config : List (String × JSON) := []
  Active : Option Bool := none

/-- Go `hook.GetURL()`: the empty string for a nil hook or a nil URL. -/
def Hook.GetURL : Option Hook → String
  | some h => h.URL.getD ""
  | none => ""

/-- Go `m[key] == s` for a `map[string]interface{}` and a string `s`: true
exactly when the key is present and holds a string equal to `s`. -/
def ifaceEqString (v : Option JSON) (s : String) : Bool :=
  match v with
  | some (.str t) => t == s
  | _ => false

/-- Go `types.ObjectKey` (`types.NamespacedName`). -/
structure ObjectKey where
  Namespace : String
  Name : String
  deriving DecidableEq, Repr

/-- Go `unstructured.Unstructured`: `Object` is a `map[string]interface{}`. -/
structure Unstructured where
  Object : List (String × JSON) := []

/-- Go `ctrl.Request`. -/
structure Request where
  NamespacedName : ObjectKey

/-- Go `ctrl.Result`; `RequeueAfter` is a `time.Duration` in nanoseconds. -/
structure Result where
  Requeue : Bool := false
  RequeueAfter : Int := 0
  deriving DecidableEq, Repr

/-! ## pkg/types -/

/-- Go `metav1.ObjectMeta`, with the fields this repository reads or sets. -/
structure ObjectMeta where
  Name : String := ""
  GenerateName : String := ""
  Namespace : String := ""

/-- Go `types.Target`. -/
structure Target where
  Kind : String := ""
  Name : String := ""

/-- Go `types.Trigger`; `Duration` is a `metav1.Duration` in nanoseconds. -/
structure Trigger where
  GitHubEvent : JSON := .null
  Amount : Int := 0
  Duration : Int := 0

/-- Go `types.HRASpec`. -/
structure HRASpec where
  ScaleTargetRef : Target := {}
  ScaleUpTriggers : List Trigger := []

/-- Go `types.HorizontalRunnerAutoscaler`. -/
structure HorizontalRunnerAutoscaler where
  ObjectMeta : ObjectMeta := {}
  Spec : HRASpec := {}

/-- Go `types.RunnerSpec`. -/
structure RunnerSpec where
  Repository : String := ""

/-- Go `types.RunnerTemplate`. -/
structure RunnerTemplate where
  Spec : RunnerSpec := {}

/-- Go `types.DeploymentSpec`. -/
structure DeploymentSpec where
  Template : RunnerTemplate := {}

/-- Go `types.RunnerDeployment`. -/
structure RunnerDeployment where
  ObjectMeta : ObjectMeta := {}
  Spec : DeploymentSpec := {}

def HorizontalRunnerAutoscalerGroup : String := "actions.summerwind.dev"
def HorizontalRunnerAutoscalerVersion : String := "v1alpha1"
def HorizontalRunnerAutoscalerKind : String := "HorizontalRunnerAutoscaler"

def RunnerDeploymentGroup : String := "actions.summerwind.dev"
def RunnerDeploymentVersion : String := "v1alpha1"
def RunnerDeploymentKind : String := "RunnerDeployment"

/-- Go `obj.SetGroupVersionKind` on an empty object: sets `apiVersion` to
`group/version` and `kind`. -/
def newObject (group version kind : String) : Unstructured :=
  { Object := [("apiVersion", .str (group ++ "/" ++ version)), ("kind", .str kind)] }

/-- Go `types.GetHorizontalRunnerAutoscalerObject`. -/
def GetHorizontalRunnerAutoscalerObject : Unstructured :=
  newObject HorizontalRunnerAutoscalerGroup HorizontalRunnerAutoscalerVersion
    HorizontalRunnerAutoscalerKind

/-- Go `types.GetRunnerDeploymentObject`. -/
def GetRunnerDeploymentObject : Unstructured :=
  newObject RunnerDeploymentGroup RunnerDeploymentVersion RunnerDeploymentKind

/-- Go `(*HorizontalRunnerAutoscaler).HasWebhooks`. -/
def HorizontalRunnerAutoscaler.HasWebhooks (h : HorizontalRunnerAutoscaler) : Bool :=
  decide (h.Spec.ScaleUpTriggers.length > 0)

/-- Go `strings.Split(s, "/")`: the pieces of `s` between the separators, one
more piece than there are separators. -/
def Split (s : String) (sep : Char) : List String :=
  (s.toList.splitOn sep).map String.mk

/-- Go `parts[i]` for an index the caller has checked. -/
def index (parts : List String) (i : Nat) : String :=
  parts.getD i ""

/-- Go `(*RunnerDeployment).GetRepository`. -/
def RunnerDeployment.GetRepository (r : RunnerDeployment) : String :=
  let parts := Split r.Spec.Template.Spec.Repository '/'
  if parts.length == 1 then
    r.Spec.Template.Spec.Repository
  else
    index parts (parts.length - 1)

/-- Go `(*RunnerDeployment).GetOwner`. -/
def RunnerDeployment.GetOwner (r : RunnerDeployment) : String :=
  let parts := Split r.Spec.Template.Spec.Repository '/'
  if parts.length == 1 then
    ""
  else
    index parts 0

/-! ## Collaborators -/

/-- One call to a collaborator, or one log line. -/
inductive Effect where
  /-- Go `r.Get(ctx, key, obj)` on the cluster store. -/
  | Get (key : ObjectKey) (obj : Unstructured)
  /-- Go `r.Events.Eventf(obj, eventtype, reason, ...)` with the formatted message. -/
  | Eventf (eventtype reason message : String)
  /-- Go `r.ListHooks(ctx, owner, repo, nil)`. -/
  | ListHooks (owner repo : String)
  /-- Go `r.CreateHook(ctx, owner, repo, hook)`. -/
  | CreateHook (owner repo : String) (hook : Hook)
  /-- Go `log.Info(msg, ...)`. -/
  | Info (msg : String)
  /-- Go `log.Error(err, msg)`. -/
  | Error (err : Error) (msg : String)

/-- Go `client.Client`, of which the reconciler uses `Get` only: the object
passed in carries the group, version and kind, the result is the object
filled in, or an error. -/
structure Client where
  Get : ObjectKey → Unstructured → Except Error Unstructured

/-- Go interface `Repository` over a host with state `σ`.  `CreateHook`
returns a `*github.Hook`, which may be nil. -/
structure Repository (σ : Type) where
  CreateHook : σ → String → String → Hook → Except Error (Option Hook) × σ
  ListHooks : σ → String → String → Except Error (List Hook) × σ

/-- Go `record.EventRecorder`; what it records is in the effect list. -/
structure EventRecorder where
  component : String := ""

/-- Go `obj.MarshalJSON()` followed by `json.Unmarshal(data, v)` for the two
typed values of `pkg/types`; an error is the message of the Go error. -/
structure Codec where
  MarshalJSON : Unstructured → Except String JSON
  UnmarshalHorizontalRunnerAutoscaler : JSON → Except String HorizontalRunnerAutoscaler
  UnmarshalRunnerDeployment : JSON → Except String RunnerDeployment

/-- Go `RunnerWebhookReconciler`.  `Events` is an interface value and is nil
unless it is assigned; `Scheme` is not read by any method. -/
structure RunnerWebhookReconciler (σ : Type) where
  Client : Client
  Repository : Repository σ
  Events : Option EventRecorder := none
  WebhookURL : String
  WebhookEvents : List String
  syncPeriod : Int := 0

/-- Go `RunnerWebhookReconcilerOptions`. -/
structure RunnerWebhookReconcilerOptions where
  MaxConcurrentReconciles : Int := 0
  SyncPeriod : Int := 0

/-- How a Go call ends: it returns, or it panics. -/
inductive Outcome (α : Type) where
  | returned (a : α)
  | panicked (msg : String)

/-- The end of a call: how it ended, the host state it left, what it did. -/
structure Run (σ α : Type) where
  outcome : Outcome α
  state : σ
  effects : List Effect

/-! ## controllers/webhook_controller.go -/

variable {σ : Type}

/-- Go `SetupWithManagerAndOptions`: stores the sync period in the reconciler;
the registration with the manager is left to controller-runtime. -/
def SetupWithManagerAndOptions (r : RunnerWebhookReconciler σ)
    (opts : RunnerWebhookReconcilerOptions) : RunnerWebhookReconciler σ :=
  { r with syncPeriod := opts.SyncPeriod }

/-- Go `SetupWithManager`. -/
def SetupWithManager (r : RunnerWebhookReconciler σ) : RunnerWebhookReconciler σ :=
  SetupWithManagerAndOptions r {}

/-- The loop of Go `equal`: `a[i] != b[i]` for `i` from `i` on, `n` indices left. -/
def equalFrom (a b : List String) (i : Nat) : Nat → Bool
  | 0 => true
  | n + 1 => if index a i != index b i then false else equalFrom a b (i + 1) n

/-- Go `equal`: compares slices of strings. -/
def equal (a b : List String) : Bool :=
  if a.length != b.length then false
  else equalFrom a b 0 a.length

/-- The condition of the loop of `reconcileWebhook`:
`hook.Config["url"] == r.WebhookURL && equal(hook.Events, r.WebhookEvents)`. -/
def hookMatches (r : RunnerWebhookReconciler σ) (hook : Hook) : Bool :=
  ifaceEqString (hook.Config.lookup "url") r.WebhookURL && equal hook.Events r.WebhookEvents

/-- The loop of `reconcileWebhook` over the listed hooks: true when it returns
early on a matching hook. -/
def anyHookMatches (r : RunnerWebhookReconciler σ) : List Hook → Bool
  | [] => false
  | hook :: rest => if hookMatches r hook then true else anyHookMatches r rest

/-- The hook that `reconcileWebhook` passes to `CreateHook`. -/
def desiredHook (r : RunnerWebhookReconciler σ) : Hook :=
  { Active := some true
    Events := r.WebhookEvents
    Config := [("url", .str r.WebhookURL), ("content_type", .str "json")] }

/-- Go `reconcileWebhook`: the returned error (`none` is nil), the host state
and the effects. -/
def reconcileWebhook (r : RunnerWebhookReconciler σ) (s : σ) (owner repository : String) :
    Option Error × σ × List Effect :=
  match r.Repository.ListHooks s owner repository with
  | (.error err, s1) =>
    (some (.wrap "error listing webhooks for repository" err), s1,
      [.ListHooks owner repository])
  | (.ok hooks, s1) =>
    if anyHookMatches r hooks then
      (none, s1, [.ListHooks owner repository])
    else
      match r.Repository.CreateHook s1 owner repository (desiredHook r) with
      | (.error err, s2) =>
        (some (.wrap "error creating webhook" err), s2,
          [.ListHooks owner repository, .CreateHook owner repository (desiredHook r)])
      | (.ok hook, s2) =>
        (none, s2,
          [.ListHooks owner repository, .CreateHook owner repository (desiredHook r),
            .Info ("created webhook url=" ++ Hook.GetURL hook)])

/-- The key that `getRunnerDeployment` builds: the namespace of the autoscaler
and the name of its scale target. -/
def scaleTargetKey (hra : HorizontalRunnerAutoscaler) : ObjectKey :=
  { Namespace := hra.ObjectMeta.Namespace, Name := hra.Spec.ScaleTargetRef.Name }

/-- Go `getRunnerDeployment`: the deployment or the error, and the effects. -/
def getRunnerDeployment (c : Codec) (r : RunnerWebhookReconciler σ)
    (hra : HorizontalRunnerAutoscaler) : Except Error RunnerDeployment × List Effect :=
  let key := scaleTargetKey hra
  let obj := GetRunnerDeploymentObject
  match r.Client.Get key obj with
  | .error err => (.error err, [.Get key obj])
  | .ok fetched =>
    match c.MarshalJSON fetched with
    | .error msg => (.error (.other msg), [.Get key obj])
    | .ok data =>
      match c.UnmarshalRunnerDeployment data with
      | .error msg => (.error (.other msg), [.Get key obj])
      | .ok runnerDeployment => (.ok runnerDeployment, [.Get key obj])

/-- Go `Reconcile`.  The call of `Eventf` on a nil `Events` panics. -/
def Reconcile (c : Codec) (r : RunnerWebhookReconciler σ) (req : Request) (s : σ) :
    Run σ (Result × Option Error) :=
  let obj := GetHorizontalRunnerAutoscalerObject
  match r.Client.Get req.NamespacedName obj with
  | .error err =>
    match r.Events with
    | none =>
      ⟨.panicked "invalid memory address or nil pointer dereference", s,
        [.Get req.NamespacedName obj]⟩
    | some _ =>
      ⟨.returned ({}, IgnoreNotFound err), s,
        [.Get req.NamespacedName obj,
          .Eventf "Warning" "GetFailed"
            ("Failed to get " ++ HorizontalRunnerAutoscalerKind ++ ": " ++ err.text)]⟩
  | .ok fetched =>
    let pre : List Effect := [.Get req.NamespacedName obj, .Info "reconciling"]
    match c.MarshalJSON fetched with
    | .error msg =>
      ⟨.returned ({}, some (.other msg)), s,
        pre ++ [.Error (.other msg) "Failed to marshal object"]⟩
    | .ok data =>
      match c.UnmarshalHorizontalRunnerAutoscaler data with
      | .error msg =>
        ⟨.returned ({}, some (.other msg)), s,
          pre ++ [.Error (.other msg) "Failed to unmarshal object"]⟩
      | .ok hra =>
        if !hra.HasWebhooks then
          ⟨.returned ({}, none), s, pre ++ [.Info "No webhook configured"]⟩
        else
          match getRunnerDeployment c r hra with
          | (.error err, fx) => ⟨.returned ({}, IgnoreNotFound err), s, pre ++ fx⟩
          | (.ok runner, fx) =>
            let pre2 := pre ++ fx ++ [.Info ("repository repository=" ++ runner.GetRepository)]
            match reconcileWebhook r s runner.GetOwner runner.GetRepository with
            | (some err, s1, fx2) =>
              ⟨.returned ({}, some err), s1,
                pre2 ++ fx2 ++ [.Error err "Failed to reconcile webhook"]⟩
            | (none, s1, fx2) =>
              ⟨.returned ({ RequeueAfter := r.syncPeriod }, none), s1, pre2 ++ fx2⟩

/-! ## Observations on effect lists -/

/-- The `CreateHook` calls of an effect list, in order: owner, repository, hook. -/
def createCalls : List Effect → List (String × String × Hook)
  | [] => []
  | .CreateHook owner repo hook :: rest => (owner, repo, hook) :: createCalls rest
  | _ :: rest => createCalls rest

/-- The `ListHooks` calls of an effect list, in order: owner, repository. -/
def listCalls : List Effect → List (String × String)
  | [] => []
  | .ListHooks owner repo :: rest => (owner, repo) :: listCalls rest
  | _ :: rest => listCalls rest

/-- The cluster-store `Get` calls of an effect list, in order. -/
def getCalls : List Effect → List (ObjectKey × Unstructured)
  | [] => []
  | .Get key obj :: rest => (key, obj) :: getCalls rest
  | _ :: rest => getCalls rest

/-- The events recorded by an effect list, in order: type, reason, message. -/
def recordedEvents : List Effect → List (String × String × String)
  | [] => []
  | .Eventf t reason msg :: rest => (t, reason, msg) :: recordedEvents rest
  | _ :: rest => recordedEvents rest

/-! ## Concrete collaborators, used to evaluate the reconciler on examples -/

/-- The hooks of every repository of an in-memory host. -/
abbrev HostState := List ((String × String) × Hook)

/-- The hooks of one repository of an in-memory host. -/
def hooksOf (s : HostState) (owner repo : String) : List Hook :=
  (s.filter (fun e => e.1.1 == owner && e.1.2 == repo)).map (fun e => e.2)

/-- An in-memory repository host: `ListHooks` returns the hooks of the
repository, `CreateHook` adds the hook to them and returns it. -/
def memoryHost : Repository HostState where
  ListHooks := fun s owner repo => (.ok (hooksOf s owner repo), s)
  CreateHook := fun s owner repo hook => (.ok (some hook), s ++ [((owner, repo), hook)])

/-- An in-memory repository host that refuses every `CreateHook`. -/
def readOnlyHost : Repository HostState where
  ListHooks := fun s owner repo => (.ok (hooksOf s owner repo), s)
  CreateHook := fun s _ _ _ => (.error (.other "403 Forbidden"), s)

/-- A repository host whose `ListHooks` fails. -/
def downHost : Repository HostState where
  ListHooks := fun s _ _ => (.error (.other "503 Service Unavailable"), s)
  CreateHook := fun s owner repo hook => (.ok (some hook), s ++ [((owner, repo), hook)])

/-- A cluster store without objects that answers every `Get` with not-found. -/
def emptyClient : Client where
  Get := fun key _ => .error (.notFound (key.Name ++ " not found"))

/-- The reconciler of the tests: webhook `http://test.webhook` on an in-memory host. -/
def testReconciler (events : List String) : RunnerWebhookReconciler HostState where
  Client := emptyClient
  Repository := memoryHost
  Events := some {}
  WebhookURL := "http://test.webhook"
  WebhookEvents := events

/-- An existing hook named `web` for `http://test.webhook`. -/
def webHook (events : List String) : Hook :=
  { Name := some "web", Events := events, Config := [("url", .str "http://test.webhook")] }

/-- A host on which `test-org/test-repo` has the hook `webHook events`. -/
def testState (events : List String) : HostState :=
  [(("test-org", "test-repo"), webHook events)]

/-- Two successive calls of `reconcileWebhook` for one repository, the second
on the host state the first one left: the results of the first and second call. -/
def reconcileWebhookTwice (r : RunnerWebhookReconciler σ) (s : σ) (owner repository : String) :
    (Option Error × σ × List Effect) × (Option Error × σ × List Effect) :=
  let first := reconcileWebhook r s owner repository
  (first, reconcileWebhook r first.2.1 owner repository)

/-- The reconciler of the tests on a host that refuses every `CreateHook`. -/
def readOnlyReconciler (events : List String) : RunnerWebhookReconciler HostState :=
  { testReconciler events with Repository := readOnlyHost }

/-- A runner deployment whose `spec.template.spec.repository` is `repository`. -/
def deploymentFor (repository : String) : RunnerDeployment :=
  { Spec := { Template := { Spec := { Repository := repository } } } }

/-- The string under key `k` of a JSON object, the empty string when the key is
absent or holds no string (Go `unstructured.NestedString`). -/
def stringAt (fields : List (String × JSON)) (k : String) : String :=
  match fields.lookup k with
  | some (.str s) => s
  | _ => ""

/-- The object under key `k` of a JSON object, empty when the key is absent or
holds no object. -/
def objectAt (fields : List (String × JSON)) (k : String) : List (String × JSON) :=
  match fields.lookup k with
  | some (.obj f) => f
  | _ => []

/-- Go `u.GetAPIVersion()`. -/
def Unstructured.GetAPIVersion (u : Unstructured) : String := stringAt u.Object "apiVersion"

/-- Go `u.GetKind()`. -/
def Unstructured.GetKind (u : Unstructured) : String := stringAt u.Object "kind"

/-- Go `u.GetNamespace()`. -/
def Unstructured.GetNamespace (u : Unstructured) : String :=
  stringAt (objectAt u.Object "metadata") "namespace"

/-- Go `u.GetName()`. -/
def Unstructured.GetName (u : Unstructured) : String :=
  stringAt (objectAt u.Object "metadata") "name"

/-- The stored object that a `Get` of `key` into `obj` finds in a cluster store
holding `objs`: same group, version and kind as `obj`, namespace and name of
`key`. -/
def stored (objs : List Unstructured) (key : ObjectKey) (obj : Unstructured) :
    Option Unstructured :=
  objs.find? (fun o =>
    o.GetAPIVersion == obj.GetAPIVersion && o.GetKind == obj.GetKind &&
      o.GetNamespace == key.Namespace && o.GetName == key.Name)

/-- A cluster store holding `objs`: `Get` returns the stored object, or a
not-found error. -/
def storeClient (objs : List Unstructured) : Client where
  Get := fun key obj =>
    match stored objs key obj with
    | some o => .ok o
    | none => .error (.notFound (obj.GetKind ++ " " ++ key.Name ++ " not found"))

/-- A cluster store whose `Get` fails with a transport error. -/
def brokenClient : Client where
  Get := fun _ _ => .error (.other "connection refused")

/-- Decoding into a Go `string`: null leaves the zero value, a string is taken,
anything else is a type error. -/
def asString : JSON → Except String String
  | .null => .ok ""
  | .str s => .ok s
  | _ => .error "json: cannot unmarshal value into Go value of type string"

/-- Decoding into a Go `int`. -/
def asInt : JSON → Except String Int
  | .null => .ok 0
  | .num n => .ok n
  | _ => .error "json: cannot unmarshal value into Go value of type int"

/-- Decoding into a Go struct: null leaves the zero value, an object gives its
members, anything else is a type error. -/
def asObject : JSON → Except String (List (String × JSON))
  | .null => .ok []
  | .obj f => .ok f
  | _ => .error "json: cannot unmarshal value into Go value of type struct"

/-- Decoding into a Go slice. -/
def asArray : JSON → Except String (List JSON)
  | .null => .ok []
  | .arr xs => .ok xs
  | _ => .error "json: cannot unmarshal value into Go value of type slice"

/-- The member `k` of a JSON object, null when absent. -/
def member (fields : List (String × JSON)) (k : String) : JSON :=
  (fields.lookup k).getD .null

/-- Decoding of `metadata` into `ObjectMeta`. -/
def unmarshalObjectMeta (j : JSON) : Except String ObjectMeta := do
  let f ← asObject j
  let name ← asString (member f "name")
  let generateName ← asString (member f "generateName")
  let ns ← asString (member f "namespace")
  pure { Name := name, GenerateName := generateName, Namespace := ns }

/-- Decoding of a `metav1.Duration` written as a whole number of seconds,
`<digits>s`; other spellings are refused here. -/
def unmarshalDuration : Option JSON → Except String Int
  | none => .ok 0
  | some (.str s) =>
    match s.toList.reverse with
    | 's' :: ds =>
      if ds ≠ [] ∧ ds.all Char.isDigit then
        .ok ((ds.reverse.foldl (fun n d => 10 * n + (d.toNat - '0'.toNat)) 0 : Nat) * 1000000000)
      else .error "time: invalid duration"
    | _ => .error "time: invalid duration"
  | some _ => .error "json: cannot unmarshal value into Go value of type string"

/-- Decoding of one element of `scaleUpTriggers`. -/
def unmarshalTrigger (j : JSON) : Except String Trigger := do
  let f ← asObject j
  let amount ← asInt (member f "amount")
  let duration ← unmarshalDuration (f.lookup "duration")
  pure { GitHubEvent := member f "githubEvent", Amount := amount, Duration := duration }

/-- Decoding into `HorizontalRunnerAutoscaler`, following its `json` tags. -/
def unmarshalHorizontalRunnerAutoscaler (data : JSON) :
    Except String HorizontalRunnerAutoscaler := do
  let top ← asObject data
  let objectMeta ← unmarshalObjectMeta (member top "metadata")
  let spec ← asObject (member top "spec")
  let target ← asObject (member spec "scaleTargetRef")
  let kind ← asString (member target "kind")
  let name ← asString (member target "name")
  let triggers ← asArray (member spec "scaleUpTriggers")
  let triggers ← triggers.mapM unmarshalTrigger
  pure { ObjectMeta := objectMeta
         Spec := { ScaleTargetRef := { Kind := kind, Name := name }
                   ScaleUpTriggers := triggers } }

/-- Decoding into `RunnerDeployment`, following its `json` tags. -/
def unmarshalRunnerDeployment (data : JSON) : Except String RunnerDeployment := do
  let top ← asObject data
  let objectMeta ← unmarshalObjectMeta (member top "metadata")
  let spec ← asObject (member top "spec")
  let template ← asObject (member spec "template")
  let runnerSpec ← asObject (member template "spec")
  let repository ← asString (member runnerSpec "repository")
  pure { ObjectMeta := objectMeta
         Spec := { Template := { Spec := { Repository := repository } } } }

/-- A codec for plain documents: keys spelled as in the `json` tags, durations
in whole seconds.  The theorems hold for every codec; this one evaluates the
reconciler on examples. -/
def plainCodec : Codec where
  MarshalJSON := fun u => .ok (.obj u.Object)
  UnmarshalHorizontalRunnerAutoscaler := unmarshalHorizontalRunnerAutoscaler
  UnmarshalRunnerDeployment := unmarshalRunnerDeployment

/-- The `metadata` of a stored object. -/
def metadataOf (ns name : String) : String × JSON :=
  ("metadata", .obj [("namespace", .str ns), ("name", .str name)])

/-- A stored autoscaler `ns/name` with scale target `target` and the given triggers. -/
def autoscalerObject (ns name target : String) (triggers : List JSON) : Unstructured :=
  { Object := GetHorizontalRunnerAutoscalerObject.Object ++
      [metadataOf ns name,
        ("spec", .obj [("scaleTargetRef", .obj [("kind", .str RunnerDeploymentKind),
            ("name", .str target)]),
          ("scaleUpTriggers", .arr triggers)])] }

/-- A stored runner deployment `ns/name` whose repository member is `repository`. -/
def deploymentObject (ns name : String) (repository : JSON) : Unstructured :=
  { Object := GetRunnerDeploymentObject.Object ++
      [metadataOf ns name,
        ("spec", .obj [("template", .obj [("spec", .obj [("repository", repository)])])])] }

/-- A trigger on `pull_request` events. -/
def pullRequestTrigger : JSON :=
  .obj [("githubEvent", .str "pull_request"), ("amount", .num 1), ("duration", .str "60s")]

/-- The request for the autoscaler `test/runner`. -/
def testRequest : Request := { NamespacedName := { Namespace := "test", Name := "runner" } }

/-- The reconciler of the scenarios: webhook `https://hooks.example` for
`workflow_job` on an in-memory host, over a cluster store holding `objs`. -/
def scenarioReconciler (objs : List Unstructured) : RunnerWebhookReconciler HostState where
  Client := storeClient objs
  Repository := memoryHost
  Events := some {}
  WebhookURL := "https://hooks.example"
  WebhookEvents := ["workflow_job"]

/-- The cluster store of the scenarios: the autoscaler `test/runner` with one
trigger and its scale target `test/widgets` for the repository `acme/widgets`. -/
def scenarioStore : List Unstructured :=
  [autoscalerObject "test" "runner" "widgets" [pullRequestTrigger],
    deploymentObject "test" "widgets" (.str "acme/widgets")]

/-- The autoscaler of `scenarioStore`, decoded. -/
def scenarioAutoscaler : HorizontalRunnerAutoscaler :=
  { ObjectMeta := { Name := "runner", Namespace := "test" }
    Spec := { ScaleTargetRef := { Kind := "RunnerDeployment", Name := "widgets" }
              ScaleUpTriggers := [{ GitHubEvent := .str "pull_request", Amount := 1,
                                    Duration := 60000000000 }] } }

/-- The deployment of `scenarioStore`, decoded. -/
def scenarioDeployment : RunnerDeployment :=
  { ObjectMeta := { Name := "widgets", Namespace := "test" }
    Spec := { Template := { Spec := { Repository := "acme/widgets" } } } }

/-- The reconciler of the scenarios on a host whose `ListHooks` fails. -/
def downReconciler : RunnerWebhookReconciler HostState :=
  { scenarioReconciler scenarioStore with Repository := downHost }

/-- An autoscaler in namespace `ns` whose scale target is named `target`, with
one trigger, as the test of `getRunnerDeployment` builds it. -/
def autoscalerFor (ns target : String) : HorizontalRunnerAutoscaler :=
  { ObjectMeta := { Namespace := ns, GenerateName := "runner" }
    Spec := { ScaleTargetRef := { Kind := RunnerDeploymentKind, Name := target }
              ScaleUpTriggers := [{ GitHubEvent := .str "pull_request", Amount := 1,
                                    Duration := 60000000000 }] } }

/-- The reconciler that Go `main` builds and sets up: `Client`, `Repository`,
`WebhookURL` and `WebhookEvents` (the flag split at the commas) are assigned,
`Events` is not, and `SetupWithManagerAndOptions` stores the sync period. -/
def mainReconciler (client : Client) (repository : Repository σ)
    (webhookURL webhookEvents : String) (opts : RunnerWebhookReconcilerOptions) :
    RunnerWebhookReconciler σ :=
  SetupWithManagerAndOptions
    { Client := client
      Repository := repository
      WebhookURL := webhookURL
      WebhookEvents := Split webhookEvents ',' }
    opts

/-- The options that Go `main` builds from the default flags: one concurrent
reconcile, a sync period of four hours. -/
def defaultOptions : RunnerWebhookReconcilerOptions :=
  { MaxConcurrentReconciles := 1, SyncPeriod := 14400000000000 }

/-- The reconciler of Go `main` with the default flags, on an in-memory host. -/
def defaultReconciler (client : Client) : RunnerWebhookReconciler HostState :=
  mainReconciler client memoryHost "https://62bb3ef8c1446b.lhr.domains" "workflow_job"
    defaultOptions

/-! ## Lemmas and theorems -/

/-- The loop of `equal` succeeds exactly when the slices agree at every index it visits. -/
theorem equalFrom_iff (a b : List String) (n i : Nat) :
    equalFrom a b i n = true ↔ ∀ j, j < n → index a (i + j) = index b (i + j) := by
  induction n generalizing i with
  | zero => simp [equalFrom]
  | succ n ih =>
    simp only [equalFrom]
    split
    · rename_i h
      simp at h
      constructor
      · intro h'; cases h'
      · intro hall; exact absurd (by simpa using hall 0 (by omega)) h
    · rename_i h
      simp at h
      rw [ih]
      constructor
      · intro hall j hj
        cases j with
        | zero => simpa using h
        | succ j =>
          have := hall j (by omega)
          rwa [show i + 1 + j = i + (j + 1) by omega] at this
      · intro hall j hj
        have := hall (j + 1) (by omega)
        rwa [show i + (j + 1) = i + 1 + j by omega] at this

/-- Go `equal` is equality of the two sequences. -/
theorem equal_iff (a b : List String) : equal a b = true ↔ a = b := by
  unfold equal
  split
  · rename_i h
    simp at h
    constructor
    · intro h'; cases h'
    · intro hab; exact absurd (by rw [hab]) h
  · rename_i h
    simp at h
    rw [equalFrom_iff]
    constructor
    · intro hall
      apply List.ext_getElem h
      intro j h1 h2
      have := hall j h1
      simpa [index, List.getD_eq_getElem?_getD, List.getElem?_eq_getElem h1, List.getElem?_eq_getElem h2] using this
    · intro hab j _
      rw [hab]

/-- The comparison of a map entry with a string holds exactly for a present string entry. -/
theorem ifaceEqString_iff (v : Option JSON) (s : String) :
    ifaceEqString v s = true ↔ v = some (.str s) := by
  unfold ifaceEqString
  split
  · simp
  · rename_i h
    constructor
    · intro h'; cases h'
    · intro hv; exact absurd hv (by intro hv; exact h s hv)

/-- The loop condition: same URL and the same event sequence. -/
theorem hookMatches_iff (r : RunnerWebhookReconciler σ) (hook : Hook) :
    hookMatches r hook = true ↔
      hook.Config.lookup "url" = some (.str r.WebhookURL) ∧ hook.Events = r.WebhookEvents := by
  simp [hookMatches, ifaceEqString_iff, equal_iff]

/-- The loop returns early exactly when some listed hook satisfies its condition. -/
theorem anyHookMatches_iff (r : RunnerWebhookReconciler σ) (hooks : List Hook) :
    anyHookMatches r hooks = true ↔ ∃ hook ∈ hooks, hookMatches r hook = true := by
  induction hooks with
  | nil => simp [anyHookMatches]
  | cons hook rest ih =>
    simp only [anyHookMatches]
    split
    · rename_i h
      simp [h]
    · rename_i h
      simp [ih, h]

/-- What `reconcileWebhook` does once `ListHooks` has returned a list with a
matching hook. -/
theorem reconcileWebhook_of_match (r : RunnerWebhookReconciler σ) (s s1 : σ)
    (owner repository : String) (hooks : List Hook)
    (hl : r.Repository.ListHooks s owner repository = (.ok hooks, s1))
    (hm : anyHookMatches r hooks = true) :
    reconcileWebhook r s owner repository = (none, s1, [.ListHooks owner repository]) := by
  simp [reconcileWebhook, hl, hm]

/-- What `reconcileWebhook` does once `ListHooks` has returned a list without
a matching hook. -/
theorem reconcileWebhook_of_no_match (r : RunnerWebhookReconciler σ) (s s1 : σ)
    (owner repository : String) (hooks : List Hook)
    (hl : r.Repository.ListHooks s owner repository = (.ok hooks, s1))
    (hm : anyHookMatches r hooks = false) :
    reconcileWebhook r s owner repository =
      match r.Repository.CreateHook s1 owner repository (desiredHook r) with
      | (.error err, s2) =>
        (some (.wrap "error creating webhook" err), s2,
          [.ListHooks owner repository, .CreateHook owner repository (desiredHook r)])
      | (.ok hook, s2) =>
        (none, s2,
          [.ListHooks owner repository, .CreateHook owner repository (desiredHook r),
            .Info ("created webhook url=" ++ Hook.GetURL hook)]) := by
  simp [reconcileWebhook, hl, hm]

/-- The `CreateHook` calls of `reconcileWebhook` once `ListHooks` has returned
a list without a matching hook. -/
theorem createCalls_of_no_match (r : RunnerWebhookReconciler σ) (s s1 : σ)
    (owner repository : String) (hooks : List Hook)
    (hl : r.Repository.ListHooks s owner repository = (.ok hooks, s1))
    (hm : anyHookMatches r hooks = false) :
    createCalls (reconcileWebhook r s owner repository).2.2 =
      [(owner, repository, desiredHook r)] := by
  rw [reconcileWebhook_of_no_match r s s1 owner repository hooks hl hm]
  split <;> simp [createCalls]

/-- C1: when `ListHooks` returns a list, `reconcileWebhook` issues no `CreateHook`
exactly when some listed hook has `Config["url"]` equal to `WebhookURL` and `Events`
equal to `WebhookEvents` as a sequence; a single listed hook whose events are a
different ordering of the desired events is no match, and the create is issued. -/
theorem reconcileWebhook_skips_iff
    (r : RunnerWebhookReconciler σ) (s s1 : σ) (owner repository : String) (hooks : List Hook)
    (hl : r.Repository.ListHooks s owner repository = (.ok hooks, s1)) :
    (createCalls (reconcileWebhook r s owner repository).2.2 = [] ↔
        ∃ hook ∈ hooks, hook.Config.lookup "url" = some (.str r.WebhookURL) ∧
          hook.Events = r.WebhookEvents) ∧
      (∀ hook, hooks = [hook] → hook.Events.Perm r.WebhookEvents →
        hook.Events ≠ r.WebhookEvents →
        createCalls (reconcileWebhook r s owner repository).2.2 =
          [(owner, repository, desiredHook r)]) := by
  have key : anyHookMatches r hooks = true ↔
      ∃ hook ∈ hooks, hook.Config.lookup "url" = some (.str r.WebhookURL) ∧
        hook.Events = r.WebhookEvents := by
    rw [anyHookMatches_iff]
    simp only [hookMatches_iff]
  constructor
  · cases hm : anyHookMatches r hooks with
    | true =>
      rw [reconcileWebhook_of_match r s s1 owner repository hooks hl hm]
      simp only [createCalls, true_iff]
      exact key.mp hm
    | false =>
      rw [createCalls_of_no_match r s s1 owner repository hooks hl hm]
      constructor
      · intro h; cases h
      · intro h
        rw [key.mpr h] at hm
        cases hm
  · intro hook hh _ hne
    apply createCalls_of_no_match r s s1 owner repository hooks hl
    cases hm : anyHookMatches r hooks with
    | false => rfl
    | true =>
      obtain ⟨h', hmem, _, hev⟩ := key.mp hm
      rw [hh] at hmem
      simp at hmem
      rw [hmem] at hev
      exact absurd hev hne

/-- C1 at the desired events `push, pull_request` against an existing hook with
`pull_request, push`: the create is issued. -/
theorem reconcileWebhook_skips_iff_witness :
    memoryHost.ListHooks (testState ["pull_request", "push"]) "test-org" "test-repo" =
      (.ok [webHook ["pull_request", "push"]], testState ["pull_request", "push"]) ∧
    createCalls (reconcileWebhook (testReconciler ["push", "pull_request"])
        (testState ["pull_request", "push"]) "test-org" "test-repo").2.2 =
      [("test-org", "test-repo", desiredHook (testReconciler ["push", "pull_request"]))] :=
  ⟨rfl, (reconcileWebhook_skips_iff (testReconciler ["push", "pull_request"])
      (testState ["pull_request", "push"]) (testState ["pull_request", "push"])
      "test-org" "test-repo" [webHook ["pull_request", "push"]] rfl).2
      (webHook ["pull_request", "push"]) rfl (List.Perm.swap _ _ _) (by decide)⟩


/-- `reconcileWebhook` issues at most one `CreateHook` call. -/
theorem createCalls_length_le_one (r : RunnerWebhookReconciler σ) (s : σ)
    (owner repository : String) :
    (createCalls (reconcileWebhook r s owner repository).2.2).length ≤ 1 := by
  rcases hl : r.Repository.ListHooks s owner repository with ⟨res, s1⟩
  cases res with
  | error err => simp [reconcileWebhook, hl, createCalls]
  | ok hooks =>
    cases hm : anyHookMatches r hooks with
    | true => simp [reconcileWebhook_of_match r s s1 owner repository hooks hl hm, createCalls]
    | false => simp [createCalls_of_no_match r s s1 owner repository hooks hl hm]

/-- C2: when `ListHooks` returns a list without a matching hook, `reconcileWebhook`
issues exactly one `CreateHook`, for the given owner and repository, with
`Active = true`, the configured events in order and the config
`url = WebhookURL, content_type = json`; no invocation issues more than one. -/
theorem reconcileWebhook_creates_desired (r : RunnerWebhookReconciler σ) (s : σ)
    (owner repository : String) :
    (∀ (s1 : σ) (hooks : List Hook),
        r.Repository.ListHooks s owner repository = (.ok hooks, s1) →
        (∀ hook ∈ hooks, ¬ (hook.Config.lookup "url" = some (.str r.WebhookURL) ∧
          hook.Events = r.WebhookEvents)) →
        createCalls (reconcileWebhook r s owner repository).2.2 =
          [(owner, repository,
            { Active := some true
              Events := r.WebhookEvents
              Config := [("url", .str r.WebhookURL), ("content_type", .str "json")] })]) ∧
      (createCalls (reconcileWebhook r s owner repository).2.2).length ≤ 1 := by
  refine ⟨?_, createCalls_length_le_one r s owner repository⟩
  intro s1 hooks hl hm
  have hno : anyHookMatches r hooks = false := by
    cases h : anyHookMatches r hooks with
    | false => rfl
    | true =>
      obtain ⟨hook, hmem, hmatch⟩ := (anyHookMatches_iff r hooks).mp h
      exact absurd ((hookMatches_iff r hook).mp hmatch) (hm hook hmem)
  rw [createCalls_of_no_match r s s1 owner repository hooks hl hno]
  rfl

/-- C2 on `acme/widgets` without hooks: one create with the configured hook. -/
theorem reconcileWebhook_creates_desired_witness :
    memoryHost.ListHooks [] "acme" "widgets" = (.ok [], []) ∧
    createCalls (reconcileWebhook (testReconciler ["workflow_job"]) [] "acme" "widgets").2.2 =
      [("acme", "widgets",
        { Active := some true
          Events := ["workflow_job"]
          Config := [("url", .str "http://test.webhook"), ("content_type", .str "json")] })] :=
  ⟨rfl, (reconcileWebhook_creates_desired (testReconciler ["workflow_job"]) [] "acme" "widgets").1
      [] [] rfl (by simp)⟩

/-- The `CreateHook` calls of two effect lists in sequence. -/
theorem createCalls_append (xs ys : List Effect) :
    createCalls (xs ++ ys) = createCalls xs ++ createCalls ys := by
  induction xs with
  | nil => rfl
  | cons x xs ih => cases x <;> simp [createCalls, ih]

/-- A listed hook with the URL and events of the desired hook is a match. -/
theorem anyHookMatches_of_created (r : RunnerWebhookReconciler σ) (hooks : List Hook)
    (h : ∃ hook ∈ hooks, hook.Config.lookup "url" = (desiredHook r).Config.lookup "url" ∧
      hook.Events = (desiredHook r).Events) :
    anyHookMatches r hooks = true := by
  obtain ⟨hook, hmem, hurl, hev⟩ := h
  refine (anyHookMatches_iff r hooks).mpr ⟨hook, hmem, (hookMatches_iff r hook).mpr ⟨?_, hev⟩⟩
  rw [hurl]
  simp [desiredHook, List.lookup]

/-- C3, amended: on a host where a successful `CreateHook` makes a hook with the
created URL and events appear in the next `ListHooks` result and nothing else
changes between the calls (the second call starts in the state the first one
left, and `ListHooks` leaves the state as it is), two successive
`reconcileWebhook` calls issue no `CreateHook` when the initial list has a
matching hook, and exactly one in total when it has none and the `CreateHook` of
the first call succeeds; the second call creates nothing when the first call
returned no error, and without a matching hook the first call returns no error
exactly when its `CreateHook` succeeds. -/
theorem reconcileWebhookTwice_creates_once (r : RunnerWebhookReconciler σ) (s : σ)
    (owner repository : String) (initial : List Hook)
    (hread : ∀ t, (r.Repository.ListHooks t owner repository).2 = t)
    (hcreate : ∀ t hook created t',
      r.Repository.CreateHook t owner repository hook = (.ok created, t') →
      ∃ hooks, (r.Repository.ListHooks t' owner repository).1 = .ok hooks ∧
        ∃ h ∈ hooks, h.Config.lookup "url" = hook.Config.lookup "url" ∧ h.Events = hook.Events)
    (hl : (r.Repository.ListHooks s owner repository).1 = .ok initial) :
    ((∃ hook ∈ initial, hook.Config.lookup "url" = some (.str r.WebhookURL) ∧
          hook.Events = r.WebhookEvents) →
        createCalls ((reconcileWebhookTwice r s owner repository).1.2.2 ++
          (reconcileWebhookTwice r s owner repository).2.2.2) = []) ∧
      ((¬ ∃ hook ∈ initial, hook.Config.lookup "url" = some (.str r.WebhookURL) ∧
          hook.Events = r.WebhookEvents) →
        (∃ created, (r.Repository.CreateHook s owner repository (desiredHook r)).1 =
          .ok created) →
        createCalls ((reconcileWebhookTwice r s owner repository).1.2.2 ++
          (reconcileWebhookTwice r s owner repository).2.2.2) =
            [(owner, repository, desiredHook r)]) ∧
      ((reconcileWebhookTwice r s owner repository).1.1 = none →
        createCalls (reconcileWebhookTwice r s owner repository).2.2.2 = []) ∧
      ((¬ ∃ hook ∈ initial, hook.Config.lookup "url" = some (.str r.WebhookURL) ∧
          hook.Events = r.WebhookEvents) →
        ((reconcileWebhookTwice r s owner repository).1.1 = none ↔
          ∃ created, (r.Repository.CreateHook s owner repository (desiredHook r)).1 =
            .ok created)) := by
  have hl0 : r.Repository.ListHooks s owner repository = (.ok initial, s) :=
    Prod.ext hl (hread s)
  have key : anyHookMatches r initial = true ↔
      ∃ hook ∈ initial, hook.Config.lookup "url" = some (.str r.WebhookURL) ∧
        hook.Events = r.WebhookEvents := by
    rw [anyHookMatches_iff]
    simp only [hookMatches_iff]
  have hfalse : (¬ ∃ hook ∈ initial, hook.Config.lookup "url" = some (.str r.WebhookURL) ∧
      hook.Events = r.WebhookEvents) → anyHookMatches r initial = false := by
    intro h
    cases hm : anyHookMatches r initial with
    | false => rfl
    | true => exact absurd (key.mp hm) h
  -- the second call after a first call that found a match
  have hmatch : anyHookMatches r initial = true →
      reconcileWebhookTwice r s owner repository =
        ((none, s, [.ListHooks owner repository]), (none, s, [.ListHooks owner repository])) := by
    intro hm
    simp only [reconcileWebhookTwice, reconcileWebhook_of_match r s s owner repository initial hl0 hm]
  -- without a match, the first call returns no error exactly when its create succeeds
  have hfirst : anyHookMatches r initial = false →
      ((reconcileWebhookTwice r s owner repository).1.1 = none ↔
        ∃ created, (r.Repository.CreateHook s owner repository (desiredHook r)).1 =
          .ok created) := by
    intro hm
    simp only [reconcileWebhookTwice]
    rw [reconcileWebhook_of_no_match r s s owner repository initial hl0 hm]
    rcases hc : r.Repository.CreateHook s owner repository (desiredHook r) with ⟨res, s2⟩
    cases res with
    | error err => simp
    | ok created => simp
  -- the second call after a first call that created the hook
  have hsecond : anyHookMatches r initial = false →
      (reconcileWebhookTwice r s owner repository).1.1 = none →
      createCalls (reconcileWebhookTwice r s owner repository).1.2.2 =
          [(owner, repository, desiredHook r)] ∧
        createCalls (reconcileWebhookTwice r s owner repository).2.2.2 = [] := by
    intro hm hnone
    simp only [reconcileWebhookTwice] at hnone ⊢
    refine ⟨createCalls_of_no_match r s s owner repository initial hl0 hm, ?_⟩
    rw [reconcileWebhook_of_no_match r s s owner repository initial hl0 hm] at hnone ⊢
    rcases hc : r.Repository.CreateHook s owner repository (desiredHook r) with ⟨res, s2⟩
    rw [hc] at hnone
    cases res with
    | error err => simp at hnone
    | ok created =>
      obtain ⟨hooks, hl2, hin⟩ := hcreate s (desiredHook r) created s2 hc
      have hl2' : r.Repository.ListHooks s2 owner repository = (.ok hooks, s2) :=
        Prod.ext hl2 (hread s2)
      simp only [reconcileWebhook_of_match r s2 s2 owner repository hooks hl2'
        (anyHookMatches_of_created r hooks hin), createCalls]
  refine ⟨?_, ?_, ?_, ?_⟩
  · intro h
    rw [hmatch (key.mpr h)]
    rfl
  · intro h hok
    obtain ⟨h1, h2⟩ := hsecond (hfalse h) ((hfirst (hfalse h)).mpr hok)
    rw [createCalls_append, h1, h2]
    rfl
  · intro hnone
    cases hm : anyHookMatches r initial with
    | true => rw [hmatch hm]; rfl
    | false => exact (hsecond hm hnone).2
  · intro h
    exact hfirst (hfalse h)

/-- On the in-memory host a created hook is listed afterwards. -/
theorem memoryHost_lists_created (owner repository : String) (t : HostState)
    (hook : Hook) (created : Option Hook) (t' : HostState)
    (h : memoryHost.CreateHook t owner repository hook = (.ok created, t')) :
    ∃ hooks, (memoryHost.ListHooks t' owner repository).1 = .ok hooks ∧
      ∃ h ∈ hooks, h.Config.lookup "url" = hook.Config.lookup "url" ∧ h.Events = hook.Events := by
  simp only [memoryHost, Prod.mk.injEq] at h
  refine ⟨hooksOf t' owner repository, rfl, hook, ?_, rfl, rfl⟩
  rw [← h.2]
  simp [hooksOf, List.filter_append]

/-- C3, amended, on the in-memory host without hooks: the `CreateHook` of the
first call succeeds, and the two calls issue one create in total. -/
theorem reconcileWebhookTwice_creates_once_witness :
    (memoryHost.ListHooks [] "test-org" "test-repo").1 = .ok [] ∧
    (memoryHost.CreateHook [] "test-org" "test-repo" (desiredHook (testReconciler ["push"]))).1 =
      .ok (some (desiredHook (testReconciler ["push"]))) ∧
    createCalls ((reconcileWebhookTwice (testReconciler ["push"]) [] "test-org" "test-repo").1.2.2 ++
        (reconcileWebhookTwice (testReconciler ["push"]) [] "test-org" "test-repo").2.2.2) =
      [("test-org", "test-repo", desiredHook (testReconciler ["push"]))] ∧
    createCalls (reconcileWebhookTwice (testReconciler ["push"]) [] "test-org" "test-repo").2.2.2 =
      [] :=
  ⟨rfl, rfl,
    (reconcileWebhookTwice_creates_once (testReconciler ["push"]) [] "test-org" "test-repo" []
      (fun _ => rfl) (memoryHost_lists_created "test-org" "test-repo") rfl).2.1
      (by simp) ⟨_, rfl⟩,
    (reconcileWebhookTwice_creates_once (testReconciler ["push"]) [] "test-org" "test-repo" []
      (fun _ => rfl) (memoryHost_lists_created "test-org" "test-repo") rfl).2.2.1 rfl⟩

/-- C3 as stated fails: on a host that lists faithfully and refuses every
`CreateHook`, two successive calls on an empty hook list issue two `CreateHook`
calls, one of them in the second call. -/
theorem reconcileWebhookTwice_failed_create_repeats :
    (∀ t, ((readOnlyReconciler ["push"]).Repository.ListHooks t "test-org" "test-repo").2 = t) ∧
    (∀ t hook created t',
      (readOnlyReconciler ["push"]).Repository.CreateHook t "test-org" "test-repo" hook =
        (.ok created, t') →
      ∃ hooks, ((readOnlyReconciler ["push"]).Repository.ListHooks t' "test-org" "test-repo").1 =
          .ok hooks ∧
        ∃ h ∈ hooks, h.Config.lookup "url" = hook.Config.lookup "url" ∧ h.Events = hook.Events) ∧
    ((readOnlyReconciler ["push"]).Repository.ListHooks [] "test-org" "test-repo").1 = .ok [] ∧
    createCalls ((reconcileWebhookTwice (readOnlyReconciler ["push"]) [] "test-org" "test-repo").1.2.2 ++
        (reconcileWebhookTwice (readOnlyReconciler ["push"]) [] "test-org" "test-repo").2.2.2) =
      [("test-org", "test-repo", desiredHook (readOnlyReconciler ["push"])),
        ("test-org", "test-repo", desiredHook (readOnlyReconciler ["push"]))] ∧
    createCalls (reconcileWebhookTwice (readOnlyReconciler ["push"]) [] "test-org" "test-repo").2.2.2 =
      [("test-org", "test-repo", desiredHook (readOnlyReconciler ["push"]))] := by
  refine ⟨fun _ => rfl, ?_, rfl, rfl, rfl⟩
  intro t hook created t' h
  simp [readOnlyReconciler, readOnlyHost] at h

/-- Splitting a list that ends in a separator-free piece `b` after a separator
gives at least two pieces, the last of which is `b`. -/
theorem splitOnP_last (p : Char → Bool) (sep : Char) (hsep : p sep = true) (b : List Char)
    (hb : ∀ x ∈ b, ¬ p x = true) (xs : List Char) :
    ∃ pre, pre ≠ [] ∧ (xs ++ sep :: b).splitOnP p = pre ++ [b] := by
  induction xs with
  | nil =>
    refine ⟨[[]], by simp, ?_⟩
    simp [List.splitOnP_cons, hsep, List.splitOnP_eq_single p b hb]
  | cons x xs ih =>
    obtain ⟨pre, hne, hpre⟩ := ih
    by_cases hx : p x = true
    · refine ⟨[] :: pre, by simp, ?_⟩
      simp [List.splitOnP_cons, hx, hpre]
    · cases pre with
      | nil => exact absurd rfl hne
      | cons h t =>
        refine ⟨(x :: h) :: t, by simp, ?_⟩
        simp [List.splitOnP_cons, hx, hpre, List.modifyHead]

/-- `Split` of a string without separator is the string alone. -/
theorem Split_of_not_mem (s : String) (sep : Char) (h : sep ∉ s.toList) :
    Split s sep = [s] := by
  unfold Split List.splitOn
  rw [List.splitOnP_eq_single]
  · rfl
  · intro x hx hp
    rw [beq_iff_eq] at hp
    exact h (hp ▸ hx)

/-- `Split` of `a/b` with a separator-free `a` starts with `a` and has a second piece. -/
theorem Split_first (a b : String) (sep : Char) (h : sep ∉ a.toList) :
    ∃ rest, rest ≠ [] ∧ Split (a ++ String.singleton sep ++ b) sep = a :: rest := by
  refine ⟨(b.toList.splitOn sep).map String.mk, ?_, ?_⟩
  · simpa [List.splitOn] using List.splitOnP_ne_nil _ b.toList
  · unfold Split List.splitOn
    have : (a ++ String.singleton sep ++ b).toList = a.toList ++ sep :: b.toList := by
      simp [String.toList, String.data_append, String.singleton]
    rw [this, List.splitOnP_first]
    · rfl
    · intro x hx hp
      rw [beq_iff_eq] at hp
      exact h (hp ▸ hx)
    · simp

/-- `Split` of `a/b` with a separator-free `b` has at least two pieces and ends with `b`. -/
theorem Split_last (a b : String) (sep : Char) (h : sep ∉ b.toList) :
    ∃ pre, pre ≠ [] ∧ Split (a ++ String.singleton sep ++ b) sep = pre ++ [b] := by
  have hx : (a ++ String.singleton sep ++ b).toList = a.toList ++ sep :: b.toList := by
    simp [String.toList, String.data_append, String.singleton]
  obtain ⟨pre, hne, hpre⟩ := splitOnP_last (· == sep) sep (by simp) b.toList
    (by
      intro x hx hp
      rw [beq_iff_eq] at hp
      exact h (hp ▸ hx)) a.toList
  refine ⟨pre.map String.mk, by simpa using hne, ?_⟩
  unfold Split List.splitOn
  rw [hx, hpre]
  simp

/-- C4: for a repository string without `/`, `GetRepository` returns it unchanged
and `GetOwner` returns the empty string; for a string with a `/`, `GetOwner`
returns what stands before the first `/` and `GetRepository` what stands after
the last one; so `acme/widgets` gives `acme` and `widgets`, and `widgets` gives
the empty owner and `widgets`. -/
theorem GetOwner_GetRepository_split (d : RunnerDeployment) :
    ('/' ∉ d.Spec.Template.Spec.Repository.toList →
        d.GetRepository = d.Spec.Template.Spec.Repository ∧ d.GetOwner = "") ∧
      (∀ a b : String, d.Spec.Template.Spec.Repository = a ++ "/" ++ b → '/' ∉ a.toList →
        d.GetOwner = a) ∧
      (∀ a b : String, d.Spec.Template.Spec.Repository = a ++ "/" ++ b → '/' ∉ b.toList →
        d.GetRepository = b) ∧
      (deploymentFor "acme/widgets").GetOwner = "acme" ∧
      (deploymentFor "acme/widgets").GetRepository = "widgets" ∧
      (deploymentFor "widgets").GetOwner = "" ∧
      (deploymentFor "widgets").GetRepository = "widgets" := by
  refine ⟨?_, ?_, ?_, by decide, by decide, by decide, by decide⟩
  · intro h
    simp [RunnerDeployment.GetRepository, RunnerDeployment.GetOwner, Split_of_not_mem _ _ h]
  · intro a b hs ha
    obtain ⟨rest, hne, hsplit⟩ := Split_first a b '/' ha
    have hsplit2 : Split d.Spec.Template.Spec.Repository '/' = a :: rest := by
      rw [hs]; exact hsplit
    cases rest with
    | nil => exact absurd rfl hne
    | cons r rs => simp [RunnerDeployment.GetOwner, hsplit2, index]
  · intro a b hs hb
    obtain ⟨pre, hne, hsplit⟩ := Split_last a b '/' hb
    have hsplit2 : Split d.Spec.Template.Spec.Repository '/' = pre ++ [b] := by
      rw [hs]; exact hsplit
    cases pre with
    | nil => exact absurd rfl hne
    | cons r rs =>
      simp [RunnerDeployment.GetRepository, hsplit2, index, List.getD_eq_getElem?_getD]

/-- C4 at `acme/tools/widgets`: the owner is `acme`, the repository `widgets`,
the middle segment is dropped. -/
theorem GetOwner_GetRepository_split_witness :
    '/' ∉ "acme".toList ∧ '/' ∉ "widgets".toList ∧
    (deploymentFor "acme/tools/widgets").GetOwner = "acme" ∧
    (deploymentFor "acme/tools/widgets").GetRepository = "widgets" :=
  ⟨by decide, by decide,
    (GetOwner_GetRepository_split (deploymentFor "acme/tools/widgets")).2.1
      "acme" "tools/widgets" (by decide) (by decide),
    (GetOwner_GetRepository_split (deploymentFor "acme/tools/widgets")).2.2.1
      "acme/tools" "widgets" (by decide) (by decide)⟩

/-- The effects of `Reconcile` up to the decoding of the autoscaler. -/
theorem Reconcile_of_get_error (c : Codec) (r : RunnerWebhookReconciler σ) (req : Request)
    (s : σ) (err : Error) (rec : EventRecorder)
    (hget : r.Client.Get req.NamespacedName GetHorizontalRunnerAutoscalerObject = .error err)
    (hrec : r.Events = some rec) :
    Reconcile c r req s =
      ⟨.returned ({}, IgnoreNotFound err), s,
        [.Get req.NamespacedName GetHorizontalRunnerAutoscalerObject,
          .Eventf "Warning" "GetFailed"
            ("Failed to get " ++ HorizontalRunnerAutoscalerKind ++ ": " ++ err.text)]⟩ := by
  simp [Reconcile, hget, hrec]

/-- `Reconcile` stops at the gate for a decoded autoscaler without triggers. -/
theorem Reconcile_of_no_webhooks (c : Codec) (r : RunnerWebhookReconciler σ) (req : Request)
    (s : σ) (fetched : Unstructured) (data : JSON) (hra : HorizontalRunnerAutoscaler)
    (hget : r.Client.Get req.NamespacedName GetHorizontalRunnerAutoscalerObject = .ok fetched)
    (hdata : c.MarshalJSON fetched = .ok data)
    (hhra : c.UnmarshalHorizontalRunnerAutoscaler data = .ok hra)
    (hgate : hra.HasWebhooks = false) :
    Reconcile c r req s =
      ⟨.returned ({}, none), s,
        [.Get req.NamespacedName GetHorizontalRunnerAutoscalerObject, .Info "reconciling",
          .Info "No webhook configured"]⟩ := by
  simp [Reconcile, hget, hdata, hhra, hgate]

/-- `Reconcile` for a decoded autoscaler with triggers whose deployment lookup fails. -/
theorem Reconcile_of_lookup_error (c : Codec) (r : RunnerWebhookReconciler σ) (req : Request)
    (s : σ) (fetched : Unstructured) (data : JSON) (hra : HorizontalRunnerAutoscaler)
    (err : Error) (fx : List Effect)
    (hget : r.Client.Get req.NamespacedName GetHorizontalRunnerAutoscalerObject = .ok fetched)
    (hdata : c.MarshalJSON fetched = .ok data)
    (hhra : c.UnmarshalHorizontalRunnerAutoscaler data = .ok hra)
    (hgate : hra.HasWebhooks = true)
    (hrd : getRunnerDeployment c r hra = (.error err, fx)) :
    Reconcile c r req s =
      ⟨.returned ({}, IgnoreNotFound err), s,
        [.Get req.NamespacedName GetHorizontalRunnerAutoscalerObject, .Info "reconciling"]
          ++ fx⟩ := by
  simp [Reconcile, hget, hdata, hhra, hgate, hrd]

/-- `Reconcile` for a decoded autoscaler with triggers and a deployment: the
result follows the result of `reconcileWebhook`. -/
theorem Reconcile_of_sync (c : Codec) (r : RunnerWebhookReconciler σ) (req : Request)
    (s : σ) (fetched : Unstructured) (data : JSON) (hra : HorizontalRunnerAutoscaler)
    (runner : RunnerDeployment) (fx : List Effect)
    (hget : r.Client.Get req.NamespacedName GetHorizontalRunnerAutoscalerObject = .ok fetched)
    (hdata : c.MarshalJSON fetched = .ok data)
    (hhra : c.UnmarshalHorizontalRunnerAutoscaler data = .ok hra)
    (hgate : hra.HasWebhooks = true)
    (hrd : getRunnerDeployment c r hra = (.ok runner, fx)) :
    (Reconcile c r req s).outcome =
      (match (reconcileWebhook r s runner.GetOwner runner.GetRepository).1 with
        | some err => .returned ({}, some err)
        | none => .returned ({ RequeueAfter := r.syncPeriod }, none)) := by
  simp only [Reconcile, hget, hdata, hhra, hgate, hrd]
  rcases reconcileWebhook r s runner.GetOwner runner.GetRepository with ⟨e, s1, fx2⟩
  cases e <;> rfl

/-- The one effect of `getRunnerDeployment` is the `Get` of the scale target. -/
theorem getRunnerDeployment_effects (c : Codec) (r : RunnerWebhookReconciler σ)
    (hra : HorizontalRunnerAutoscaler) :
    (getRunnerDeployment c r hra).2 =
      [.Get (scaleTargetKey hra) GetRunnerDeploymentObject] := by
  unfold getRunnerDeployment
  simp only []
  split
  · rfl
  · split
    · rfl
    · split <;> rfl

/-- `HasWebhooks` is false exactly for an empty trigger list. -/
theorem HasWebhooks_eq_false_iff (h : HorizontalRunnerAutoscaler) :
    h.HasWebhooks = false ↔ h.Spec.ScaleUpTriggers = [] := by
  simp [HorizontalRunnerAutoscaler.HasWebhooks, List.length_eq_zero]

/-- C5: `HasWebhooks` is true exactly when `scaleUpTriggers` is non-empty, and for
every autoscaler that is fetched and decoded with an empty trigger list `Reconcile`
returns the empty result and a nil error, its only `Get` is the one of the
autoscaler, and it calls neither `ListHooks` nor `CreateHook`. -/
theorem Reconcile_gate (c : Codec) (r : RunnerWebhookReconciler σ) (req : Request) (s : σ) :
    (∀ h : HorizontalRunnerAutoscaler, h.HasWebhooks = true ↔ h.Spec.ScaleUpTriggers ≠ []) ∧
      (∀ (fetched : Unstructured) (data : JSON) (hra : HorizontalRunnerAutoscaler),
        r.Client.Get req.NamespacedName GetHorizontalRunnerAutoscalerObject = .ok fetched →
        c.MarshalJSON fetched = .ok data →
        c.UnmarshalHorizontalRunnerAutoscaler data = .ok hra →
        hra.Spec.ScaleUpTriggers = [] →
        (Reconcile c r req s).outcome = .returned ({}, none) ∧
          getCalls (Reconcile c r req s).effects =
            [(req.NamespacedName, GetHorizontalRunnerAutoscalerObject)] ∧
          listCalls (Reconcile c r req s).effects = [] ∧
          createCalls (Reconcile c r req s).effects = [] ∧
          (Reconcile c r req s).state = s) := by
  constructor
  · intro h
    rw [← Bool.not_eq_false, Ne, HasWebhooks_eq_false_iff]
  · intro fetched data hra hget hdata hhra hnil
    rw [Reconcile_of_no_webhooks c r req s fetched data hra hget hdata hhra
      ((HasWebhooks_eq_false_iff hra).mpr hnil)]
    simp [getCalls, listCalls, createCalls]

/-- C5 on a stored autoscaler without triggers: success, and one `Get` only. -/
theorem Reconcile_gate_witness :
    (scenarioReconciler [autoscalerObject "test" "runner" "widgets" []]).Client.Get
        testRequest.NamespacedName GetHorizontalRunnerAutoscalerObject =
      .ok (autoscalerObject "test" "runner" "widgets" []) ∧
    (Reconcile plainCodec (scenarioReconciler [autoscalerObject "test" "runner" "widgets" []])
        testRequest []).outcome = .returned ({}, none) ∧
    createCalls (Reconcile plainCodec
      (scenarioReconciler [autoscalerObject "test" "runner" "widgets" []])
        testRequest []).effects = [] :=
  have h := (Reconcile_gate plainCodec
    (scenarioReconciler [autoscalerObject "test" "runner" "widgets" []]) testRequest []).2
    (autoscalerObject "test" "runner" "widgets" [])
    (.obj (autoscalerObject "test" "runner" "widgets" []).Object)
    { ObjectMeta := { Name := "runner", Namespace := "test" }
      Spec := { ScaleTargetRef := { Kind := "RunnerDeployment", Name := "widgets" } } }
    rfl rfl rfl rfl
  ⟨rfl, h.1, h.2.2.2.1⟩

/-- C6 as stated fails: with an event recorder set and a `Get` that answers
not-found, `Reconcile` returns success and has recorded a warning event. -/
theorem Reconcile_not_found_records_event :
    (scenarioReconciler []).Client.Get testRequest.NamespacedName
        GetHorizontalRunnerAutoscalerObject =
      .error (.notFound "HorizontalRunnerAutoscaler runner not found") ∧
    (Reconcile plainCodec (scenarioReconciler []) testRequest []).outcome =
      .returned ({}, none) ∧
    recordedEvents (Reconcile plainCodec (scenarioReconciler []) testRequest []).effects =
      [("Warning", "GetFailed",
        "Failed to get HorizontalRunnerAutoscaler: HorizontalRunnerAutoscaler runner not found")] := by
  refine ⟨rfl, rfl, ?_⟩
  decide

/-- C6, amended: for a reconciler with an event recorder, when the `Get` of the
autoscaler fails `Reconcile` records one warning event `GetFailed`, does no
second `Get` and calls neither `ListHooks` nor `CreateHook`; it returns the empty
result with a nil error when the failure is not-found and with the error of `Get`
otherwise, so it returns an error exactly when the failure is not not-found. -/
theorem Reconcile_fetch_failure (c : Codec) (r : RunnerWebhookReconciler σ) (req : Request)
    (s : σ) (err : Error) (rec : EventRecorder)
    (hrec : r.Events = some rec)
    (hget : r.Client.Get req.NamespacedName GetHorizontalRunnerAutoscalerObject = .error err) :
    (IsNotFound err = true → (Reconcile c r req s).outcome = .returned ({}, none)) ∧
      (IsNotFound err = false → (Reconcile c r req s).outcome = .returned ({}, some err)) ∧
      ((∃ res e, (Reconcile c r req s).outcome = .returned (res, some e)) ↔
        IsNotFound err = false) ∧
      (Reconcile c r req s).effects =
        [.Get req.NamespacedName GetHorizontalRunnerAutoscalerObject,
          .Eventf "Warning" "GetFailed"
            ("Failed to get " ++ HorizontalRunnerAutoscalerKind ++ ": " ++ err.text)] ∧
      getCalls (Reconcile c r req s).effects =
        [(req.NamespacedName, GetHorizontalRunnerAutoscalerObject)] ∧
      listCalls (Reconcile c r req s).effects = [] ∧
      createCalls (Reconcile c r req s).effects = [] ∧
      (Reconcile c r req s).state = s := by
  rw [Reconcile_of_get_error c r req s err rec hget hrec]
  refine ⟨?_, ?_, ?_, rfl, rfl, rfl, rfl, rfl⟩
  · intro h
    simp [IgnoreNotFound, h]
  · intro h
    simp [IgnoreNotFound, h]
  · cases h : IsNotFound err <;> simp [IgnoreNotFound, h]

/-- C6, amended, on a cluster store that refuses the connection: the error is returned. -/
theorem Reconcile_fetch_failure_witness :
    ({ scenarioReconciler [] with Client := brokenClient } :
        RunnerWebhookReconciler HostState).Client.Get testRequest.NamespacedName
        GetHorizontalRunnerAutoscalerObject = .error (.other "connection refused") ∧
    (Reconcile plainCodec { scenarioReconciler [] with Client := brokenClient }
        testRequest []).outcome = .returned ({}, some (.other "connection refused")) :=
  ⟨rfl, (Reconcile_fetch_failure plainCodec { scenarioReconciler [] with Client := brokenClient }
      testRequest [] (.other "connection refused") {} rfl rfl).2.1 rfl⟩

/-- `getRunnerDeployment` when the `Get` of the scale target fails. -/
theorem getRunnerDeployment_of_get_error (c : Codec) (r : RunnerWebhookReconciler σ)
    (hra : HorizontalRunnerAutoscaler) (err : Error)
    (h : r.Client.Get (scaleTargetKey hra) GetRunnerDeploymentObject = .error err) :
    getRunnerDeployment c r hra =
      (.error err, [.Get (scaleTargetKey hra) GetRunnerDeploymentObject]) := by
  simp [getRunnerDeployment, h]

/-- `getRunnerDeployment` when the `Get` of the scale target succeeds: the
result is the result of decoding the object. -/
theorem getRunnerDeployment_of_get_ok (c : Codec) (r : RunnerWebhookReconciler σ)
    (hra : HorizontalRunnerAutoscaler) (obj : Unstructured)
    (h : r.Client.Get (scaleTargetKey hra) GetRunnerDeploymentObject = .ok obj) :
    (getRunnerDeployment c r hra).1 =
      (match c.MarshalJSON obj with
        | .error msg => .error (.other msg)
        | .ok data =>
          match c.UnmarshalRunnerDeployment data with
          | .error msg => .error (.other msg)
          | .ok runnerDeployment => .ok runnerDeployment) := by
  simp only [getRunnerDeployment, h]
  split
  · rfl
  · split <;> rfl

/-- `Reconcile` after a failed deployment lookup: the outcome, and no host call. -/
theorem Reconcile_of_lookup_error_calls (c : Codec) (r : RunnerWebhookReconciler σ)
    (req : Request) (s : σ) (fetched : Unstructured) (data : JSON)
    (hra : HorizontalRunnerAutoscaler) (err : Error)
    (hget : r.Client.Get req.NamespacedName GetHorizontalRunnerAutoscalerObject = .ok fetched)
    (hdata : c.MarshalJSON fetched = .ok data)
    (hhra : c.UnmarshalHorizontalRunnerAutoscaler data = .ok hra)
    (hgate : hra.HasWebhooks = true)
    (hrd : (getRunnerDeployment c r hra).1 = .error err) :
    (Reconcile c r req s).outcome = .returned ({}, IgnoreNotFound err) ∧
      listCalls (Reconcile c r req s).effects = [] ∧
      createCalls (Reconcile c r req s).effects = [] ∧
      (Reconcile c r req s).state = s := by
  have hrd2 : getRunnerDeployment c r hra =
      (.error err, [.Get (scaleTargetKey hra) GetRunnerDeploymentObject]) :=
    Prod.ext hrd (getRunnerDeployment_effects c r hra)
  rw [Reconcile_of_lookup_error c r req s fetched data hra err _ hget hdata hhra hgate hrd2]
  simp [listCalls, createCalls]

/-- `HasWebhooks` is true for a non-empty trigger list. -/
theorem HasWebhooks_of_ne_nil (h : HorizontalRunnerAutoscaler)
    (hne : h.Spec.ScaleUpTriggers ≠ []) : h.HasWebhooks = true := by
  cases hw : h.HasWebhooks with
  | true => rfl
  | false => exact absurd ((HasWebhooks_eq_false_iff h).mp hw) hne

/-- C7: for a fetched and decoded autoscaler with at least one trigger, when the
`Get` of the scale-target deployment answers not-found `Reconcile` returns the
empty result with a nil error, and when the lookup fails otherwise (another `Get`
error, or the object cannot be marshalled or decoded) it returns that error; in
all these cases it calls neither `ListHooks` nor `CreateHook`. -/
theorem Reconcile_lookup_failure (c : Codec) (r : RunnerWebhookReconciler σ) (req : Request)
    (s : σ) (fetched : Unstructured) (data : JSON) (hra : HorizontalRunnerAutoscaler)
    (hget : r.Client.Get req.NamespacedName GetHorizontalRunnerAutoscalerObject = .ok fetched)
    (hdata : c.MarshalJSON fetched = .ok data)
    (hhra : c.UnmarshalHorizontalRunnerAutoscaler data = .ok hra)
    (htrig : hra.Spec.ScaleUpTriggers ≠ []) :
    (∀ err, r.Client.Get (scaleTargetKey hra) GetRunnerDeploymentObject = .error err →
        IsNotFound err = true →
        (Reconcile c r req s).outcome = .returned ({}, none) ∧
          listCalls (Reconcile c r req s).effects = [] ∧
          createCalls (Reconcile c r req s).effects = []) ∧
      (∀ err, r.Client.Get (scaleTargetKey hra) GetRunnerDeploymentObject = .error err →
        IsNotFound err = false →
        (Reconcile c r req s).outcome = .returned ({}, some err) ∧
          listCalls (Reconcile c r req s).effects = [] ∧
          createCalls (Reconcile c r req s).effects = []) ∧
      (∀ obj msg, r.Client.Get (scaleTargetKey hra) GetRunnerDeploymentObject = .ok obj →
        (c.MarshalJSON obj = .error msg ∨
          ∃ d, c.MarshalJSON obj = .ok d ∧ c.UnmarshalRunnerDeployment d = .error msg) →
        (Reconcile c r req s).outcome = .returned ({}, some (.other msg)) ∧
          listCalls (Reconcile c r req s).effects = [] ∧
          createCalls (Reconcile c r req s).effects = []) := by
  have hgate := HasWebhooks_of_ne_nil hra htrig
  refine ⟨?_, ?_, ?_⟩
  · intro err he hnf
    have h := Reconcile_of_lookup_error_calls c r req s fetched data hra err hget hdata hhra
      hgate (by rw [getRunnerDeployment_of_get_error c r hra err he])
    simp only [IgnoreNotFound, hnf, if_true] at h
    exact ⟨h.1, h.2.1, h.2.2.1⟩
  · intro err he hnf
    have h := Reconcile_of_lookup_error_calls c r req s fetched data hra err hget hdata hhra
      hgate (by rw [getRunnerDeployment_of_get_error c r hra err he])
    simp only [IgnoreNotFound, hnf] at h
    exact ⟨h.1, h.2.1, h.2.2.1⟩
  · intro obj msg ho hdec
    have hrd : (getRunnerDeployment c r hra).1 = .error (.other msg) := by
      rw [getRunnerDeployment_of_get_ok c r hra obj ho]
      rcases hdec with hm | ⟨d, hm, hu⟩
      · simp [hm]
      · simp [hm, hu]
    have h := Reconcile_of_lookup_error_calls c r req s fetched data hra (.other msg) hget hdata
      hhra hgate hrd
    simp only [IgnoreNotFound, IsNotFound] at h
    exact ⟨h.1, h.2.1, h.2.2.1⟩

/-- C7 on a cluster store that holds the autoscaler and no deployment: success
without a host call. -/
theorem Reconcile_lookup_failure_witness :
    (Reconcile plainCodec
        (scenarioReconciler [autoscalerObject "test" "runner" "widgets" [pullRequestTrigger]])
        testRequest []).outcome = .returned ({}, none) ∧
    listCalls (Reconcile plainCodec
        (scenarioReconciler [autoscalerObject "test" "runner" "widgets" [pullRequestTrigger]])
        testRequest []).effects = [] :=
  have h := (Reconcile_lookup_failure plainCodec
    (scenarioReconciler [autoscalerObject "test" "runner" "widgets" [pullRequestTrigger]])
    testRequest []
    (autoscalerObject "test" "runner" "widgets" [pullRequestTrigger])
    (.obj (autoscalerObject "test" "runner" "widgets" [pullRequestTrigger]).Object)
    { ObjectMeta := { Name := "runner", Namespace := "test" }
      Spec := { ScaleTargetRef := { Kind := "RunnerDeployment", Name := "widgets" }
                ScaleUpTriggers := [{ GitHubEvent := .str "pull_request", Amount := 1,
                                      Duration := 60000000000 }] } }
    rfl rfl rfl (by simp)).1 (.notFound "RunnerDeployment widgets not found") rfl rfl
  ⟨h.1, h.2.1⟩

/-- C8: `reconcileWebhook` returns an error exactly when `ListHooks` fails, or no
listed hook matches and `CreateHook` fails; when `ListHooks` fails it issues no
`CreateHook`; and when the sync step of `Reconcile` is reached and
`reconcileWebhook` returns an error, `Reconcile` returns that error with the
empty result. -/
theorem reconcileWebhook_error_iff (c : Codec) (r : RunnerWebhookReconciler σ) (req : Request)
    (s : σ) (owner repository : String) :
    ((reconcileWebhook r s owner repository).1 ≠ none ↔
        (∃ err, (r.Repository.ListHooks s owner repository).1 = .error err) ∨
          (∃ hooks, (r.Repository.ListHooks s owner repository).1 = .ok hooks ∧
            (¬ ∃ hook ∈ hooks, hook.Config.lookup "url" = some (.str r.WebhookURL) ∧
              hook.Events = r.WebhookEvents) ∧
            ∃ err, (r.Repository.CreateHook (r.Repository.ListHooks s owner repository).2
              owner repository (desiredHook r)).1 = .error err)) ∧
      ((∃ err, (r.Repository.ListHooks s owner repository).1 = .error err) →
        createCalls (reconcileWebhook r s owner repository).2.2 = []) ∧
      (∀ (fetched : Unstructured) (data : JSON) (hra : HorizontalRunnerAutoscaler)
          (runner : RunnerDeployment) (fx : List Effect) (err : Error),
        r.Client.Get req.NamespacedName GetHorizontalRunnerAutoscalerObject = .ok fetched →
        c.MarshalJSON fetched = .ok data →
        c.UnmarshalHorizontalRunnerAutoscaler data = .ok hra →
        hra.HasWebhooks = true →
        getRunnerDeployment c r hra = (.ok runner, fx) →
        (reconcileWebhook r s runner.GetOwner runner.GetRepository).1 = some err →
        (Reconcile c r req s).outcome = .returned ({ Requeue := false, RequeueAfter := 0 },
          some err)) := by
  refine ⟨?_, ?_, ?_⟩
  · rcases hl : r.Repository.ListHooks s owner repository with ⟨res, s1⟩
    cases res with
    | error e => simp [reconcileWebhook, hl]
    | ok hooks =>
      have key : anyHookMatches r hooks = true ↔
          ∃ hook ∈ hooks, hook.Config.lookup "url" = some (.str r.WebhookURL) ∧
            hook.Events = r.WebhookEvents := by
        rw [anyHookMatches_iff]
        simp only [hookMatches_iff]
      cases hm : anyHookMatches r hooks with
      | true =>
        rw [reconcileWebhook_of_match r s s1 owner repository hooks hl hm]
        have := key.mp hm
        simp [this]
      | false =>
        rw [reconcileWebhook_of_no_match r s s1 owner repository hooks hl hm]
        have hno : ¬ ∃ hook ∈ hooks, hook.Config.lookup "url" = some (.str r.WebhookURL) ∧
            hook.Events = r.WebhookEvents := by
          intro h
          rw [key.mpr h] at hm
          cases hm
        rcases hc : r.Repository.CreateHook s1 owner repository (desiredHook r) with ⟨res2, s2⟩
        cases res2 with
        | error e =>
          simp only [ne_eq, reduceCtorEq, not_false_eq_true, exists_false, false_or, true_iff]
          exact ⟨hooks, rfl, hno, e, rfl⟩
        | ok created => simp
  · rintro ⟨err, he⟩
    rcases hl : r.Repository.ListHooks s owner repository with ⟨res, s1⟩
    rw [hl] at he
    simp only at he
    subst he
    simp [reconcileWebhook, hl, createCalls]
  · intro fetched data hra runner fx err hget hdata hhra hgate hrd herr
    rw [Reconcile_of_sync c r req s fetched data hra runner fx hget hdata hhra hgate hrd, herr]

/-- C8 on a host whose `ListHooks` fails: `Reconcile` returns the wrapped error
with the empty result. -/
theorem reconcileWebhook_error_iff_witness :
    (reconcileWebhook downReconciler [] scenarioDeployment.GetOwner
        scenarioDeployment.GetRepository).1 =
      some (.wrap "error listing webhooks for repository" (.other "503 Service Unavailable")) ∧
    (Reconcile plainCodec downReconciler testRequest []).outcome =
      .returned ({ Requeue := false, RequeueAfter := 0 },
        some (.wrap "error listing webhooks for repository"
          (.other "503 Service Unavailable"))) :=
  ⟨rfl, (reconcileWebhook_error_iff plainCodec downReconciler testRequest [] "acme" "widgets").2.2
      (autoscalerObject "test" "runner" "widgets" [pullRequestTrigger])
      (.obj (autoscalerObject "test" "runner" "widgets" [pullRequestTrigger]).Object)
      scenarioAutoscaler scenarioDeployment
      [.Get (scaleTargetKey scenarioAutoscaler) GetRunnerDeploymentObject]
      (.wrap "error listing webhooks for repository" (.other "503 Service Unavailable"))
      rfl rfl rfl rfl rfl rfl⟩

/-- C9: when the sync step of `Reconcile` is reached and `reconcileWebhook`
returns no error, whatever it did, `Reconcile` returns a nil error and a result
whose `RequeueAfter` is the sync period given to `SetupWithManagerAndOptions`. -/
theorem Reconcile_requeues_after_sync_period (c : Codec) (r : RunnerWebhookReconciler σ)
    (opts : RunnerWebhookReconcilerOptions) (req : Request) (s : σ)
    (fetched : Unstructured) (data : JSON) (hra : HorizontalRunnerAutoscaler)
    (runner : RunnerDeployment) (fx : List Effect)
    (hget : (SetupWithManagerAndOptions r opts).Client.Get req.NamespacedName
      GetHorizontalRunnerAutoscalerObject = .ok fetched)
    (hdata : c.MarshalJSON fetched = .ok data)
    (hhra : c.UnmarshalHorizontalRunnerAutoscaler data = .ok hra)
    (hgate : hra.HasWebhooks = true)
    (hrd : getRunnerDeployment c (SetupWithManagerAndOptions r opts) hra = (.ok runner, fx))
    (hsync : (reconcileWebhook (SetupWithManagerAndOptions r opts) s runner.GetOwner
      runner.GetRepository).1 = none) :
    (Reconcile c (SetupWithManagerAndOptions r opts) req s).outcome =
      .returned ({ Requeue := false, RequeueAfter := opts.SyncPeriod }, none) := by
  rw [Reconcile_of_sync c _ req s fetched data hra runner fx hget hdata hhra hgate hrd, hsync]
  rfl

/-- C9 on the scenario store with a sync period of four hours, without hooks on
the host (a hook is created) and with the desired hook present (none is). -/
theorem Reconcile_requeues_after_sync_period_witness :
    (Reconcile plainCodec
        (SetupWithManagerAndOptions (scenarioReconciler scenarioStore)
          { SyncPeriod := 14400000000000 }) testRequest []).outcome =
      .returned ({ Requeue := false, RequeueAfter := 14400000000000 }, none) ∧
    (Reconcile plainCodec
        (SetupWithManagerAndOptions (scenarioReconciler scenarioStore)
          { SyncPeriod := 14400000000000 }) testRequest
        [(("acme", "widgets"), desiredHook (scenarioReconciler scenarioStore))]).outcome =
      .returned ({ Requeue := false, RequeueAfter := 14400000000000 }, none) :=
  ⟨Reconcile_requeues_after_sync_period plainCodec (scenarioReconciler scenarioStore)
      { SyncPeriod := 14400000000000 } testRequest []
      (autoscalerObject "test" "runner" "widgets" [pullRequestTrigger])
      (.obj (autoscalerObject "test" "runner" "widgets" [pullRequestTrigger]).Object)
      scenarioAutoscaler scenarioDeployment
      [.Get (scaleTargetKey scenarioAutoscaler) GetRunnerDeploymentObject]
      rfl rfl rfl rfl rfl rfl,
    Reconcile_requeues_after_sync_period plainCodec (scenarioReconciler scenarioStore)
      { SyncPeriod := 14400000000000 } testRequest
      [(("acme", "widgets"), desiredHook (scenarioReconciler scenarioStore))]
      (autoscalerObject "test" "runner" "widgets" [pullRequestTrigger])
      (.obj (autoscalerObject "test" "runner" "widgets" [pullRequestTrigger]).Object)
      scenarioAutoscaler scenarioDeployment
      [.Get (scaleTargetKey scenarioAutoscaler) GetRunnerDeploymentObject]
      rfl rfl rfl rfl rfl rfl⟩

/-- `find?` finds nothing exactly when no element passes the test. -/
theorem stored_eq_none_iff (objs : List Unstructured) (key : ObjectKey) (obj : Unstructured) :
    stored objs key obj = none ↔
      ∀ o ∈ objs, ¬ (o.GetAPIVersion = obj.GetAPIVersion ∧ o.GetKind = obj.GetKind ∧
        o.GetNamespace = key.Namespace ∧ o.GetName = key.Name) := by
  simp [stored, List.find?_eq_none, and_assoc]

/-- C10 as stated fails: a `RunnerDeployment` stored under the namespace and name
that the autoscaler points to, whose repository is a number, is found and then
fails to decode, so `getRunnerDeployment` returns an error. -/
theorem getRunnerDeployment_stored_but_error :
    stored [deploymentObject "test" "test" (.num 5)] (scaleTargetKey (autoscalerFor "test" "test"))
        GetRunnerDeploymentObject = some (deploymentObject "test" "test" (.num 5)) ∧
    (deploymentObject "test" "test" (.num 5)).GetKind = RunnerDeploymentKind ∧
    (deploymentObject "test" "test" (.num 5)).GetNamespace = "test" ∧
    (deploymentObject "test" "test" (.num 5)).GetName = "test" ∧
    (getRunnerDeployment plainCodec
        (scenarioReconciler [deploymentObject "test" "test" (.num 5)])
        (autoscalerFor "test" "test")).1 =
      .error (.other "json: cannot unmarshal value into Go value of type string") :=
  ⟨rfl, by decide, by decide, by decide, rfl⟩

/-- C10, amended: over a cluster store holding `objs`, `getRunnerDeployment` does
one `Get`, of the `RunnerDeployment` under the namespace of the autoscaler and the
name of its scale target; when such an object is stored the result is the result
of decoding it, a deployment without error when it decodes; when none is stored,
in particular when the deployments of that name are all in other namespaces, the
result is a not-found error. -/
theorem getRunnerDeployment_by_key (c : Codec) (r : RunnerWebhookReconciler σ)
    (objs : List Unstructured) (hra : HorizontalRunnerAutoscaler)
    (hc : r.Client = storeClient objs) :
    (getRunnerDeployment c r hra).2 =
        [.Get ⟨hra.ObjectMeta.Namespace, hra.Spec.ScaleTargetRef.Name⟩
          GetRunnerDeploymentObject] ∧
      (∀ o, stored objs ⟨hra.ObjectMeta.Namespace, hra.Spec.ScaleTargetRef.Name⟩
            GetRunnerDeploymentObject = some o →
        (∀ d rd, c.MarshalJSON o = .ok d → c.UnmarshalRunnerDeployment d = .ok rd →
          (getRunnerDeployment c r hra).1 = .ok rd) ∧
        (∀ msg, (c.MarshalJSON o = .error msg ∨
            ∃ d, c.MarshalJSON o = .ok d ∧ c.UnmarshalRunnerDeployment d = .error msg) →
          (getRunnerDeployment c r hra).1 = .error (.other msg))) ∧
      ((∀ o ∈ objs, ¬ (o.GetAPIVersion = GetRunnerDeploymentObject.GetAPIVersion ∧
            o.GetKind = RunnerDeploymentKind ∧
            o.GetNamespace = hra.ObjectMeta.Namespace ∧
            o.GetName = hra.Spec.ScaleTargetRef.Name)) →
        ∃ err, (getRunnerDeployment c r hra).1 = .error err ∧ IsNotFound err = true) ∧
      ((∀ o ∈ objs, o.GetKind = RunnerDeploymentKind →
            o.GetName = hra.Spec.ScaleTargetRef.Name →
            o.GetNamespace ≠ hra.ObjectMeta.Namespace) →
        ∃ err, (getRunnerDeployment c r hra).1 = .error err ∧ IsNotFound err = true) := by
  have hnone : stored objs (scaleTargetKey hra) GetRunnerDeploymentObject = none →
      ∃ err, (getRunnerDeployment c r hra).1 = .error err ∧ IsNotFound err = true := by
    intro h
    have hg : r.Client.Get (scaleTargetKey hra) GetRunnerDeploymentObject =
        .error (.notFound (GetRunnerDeploymentObject.GetKind ++ " " ++
          (scaleTargetKey hra).Name ++ " not found")) := by
      simp [hc, storeClient, h]
    exact ⟨.notFound (GetRunnerDeploymentObject.GetKind ++ " " ++
      (scaleTargetKey hra).Name ++ " not found"),
      by rw [getRunnerDeployment_of_get_error c r hra _ hg], rfl⟩
  refine ⟨getRunnerDeployment_effects c r hra, ?_, ?_, ?_⟩
  · intro o ho
    have hg : r.Client.Get (scaleTargetKey hra) GetRunnerDeploymentObject = .ok o := by
      simp only [hc, storeClient, scaleTargetKey, ho]
    rw [getRunnerDeployment_of_get_ok c r hra o hg]
    constructor
    · intro d rd hm hu
      simp [hm, hu]
    · intro msg hdec
      rcases hdec with hm | ⟨d, hm, hu⟩
      · simp [hm]
      · simp [hm, hu]
  · intro h
    apply hnone
    rw [stored_eq_none_iff]
    exact h
  · intro h
    apply hnone
    rw [stored_eq_none_iff]
    rintro o ho ⟨_, hk, hn, hname⟩
    exact h o ho hk hname hn

/-- C10, amended, on the stores of the test: the deployment `test/test` is found
from namespace `test`, and a store holding only `none/test` gives an error. -/
theorem getRunnerDeployment_by_key_witness :
    (getRunnerDeployment plainCodec
        (scenarioReconciler [deploymentObject "test" "test" (.str "acme/widgets")])
        (autoscalerFor "test" "test")).1 =
      .ok { ObjectMeta := { Name := "test", Namespace := "test" }
            Spec := { Template := { Spec := { Repository := "acme/widgets" } } } } ∧
    (∃ err, (getRunnerDeployment plainCodec
        (scenarioReconciler [deploymentObject "none" "test" (.str "acme/widgets")])
        (autoscalerFor "test" "test")).1 = .error err ∧ IsNotFound err = true) :=
  ⟨((getRunnerDeployment_by_key plainCodec
      (scenarioReconciler [deploymentObject "test" "test" (.str "acme/widgets")])
      [deploymentObject "test" "test" (.str "acme/widgets")] (autoscalerFor "test" "test")
      rfl).2.1 (deploymentObject "test" "test" (.str "acme/widgets")) rfl).1
      (.obj (deploymentObject "test" "test" (.str "acme/widgets")).Object) _ rfl rfl,
    (getRunnerDeployment_by_key plainCodec
      (scenarioReconciler [deploymentObject "none" "test" (.str "acme/widgets")])
      [deploymentObject "none" "test" (.str "acme/widgets")] (autoscalerFor "test" "test")
      rfl).2.2.2 (by
        intro o ho _ _
        rw [List.mem_singleton] at ho
        subst ho
        decide)⟩

/-- The reconciler of `main` has no event recorder. -/
theorem mainReconciler_Events (client : Client) (repository : Repository σ)
    (webhookURL webhookEvents : String) (opts : RunnerWebhookReconcilerOptions) :
    (mainReconciler client repository webhookURL webhookEvents opts).Events = none := rfl

/-- `Reconcile` without an event recorder panics when the `Get` of the
autoscaler fails, whatever the failure. -/
theorem Reconcile_of_get_error_no_recorder (c : Codec) (r : RunnerWebhookReconciler σ)
    (req : Request) (s : σ) (err : Error)
    (hget : r.Client.Get req.NamespacedName GetHorizontalRunnerAutoscalerObject = .error err)
    (hrec : r.Events = none) :
    Reconcile c r req s =
      ⟨.panicked "invalid memory address or nil pointer dereference", s,
        [.Get req.NamespacedName GetHorizontalRunnerAutoscalerObject]⟩ := by
  simp [Reconcile, hget, hrec]

/-- C11 fails on the code: for the reconciler of `main` with the default flags,
which has no event recorder, `Reconcile` panics with a nil dereference when the
`Get` of the autoscaler answers not-found, and also when it fails with a
transport error; it returns no result and no error. -/
theorem Reconcile_main_panics_on_get_failure :
    (defaultReconciler emptyClient).Events = none ∧
    (defaultReconciler emptyClient).Client.Get testRequest.NamespacedName
        GetHorizontalRunnerAutoscalerObject = .error (.notFound "runner not found") ∧
    (Reconcile plainCodec (defaultReconciler emptyClient) testRequest []).outcome =
      .panicked "invalid memory address or nil pointer dereference" ∧
    (defaultReconciler brokenClient).Client.Get testRequest.NamespacedName
        GetHorizontalRunnerAutoscalerObject = .error (.other "connection refused") ∧
    (Reconcile plainCodec (defaultReconciler brokenClient) testRequest []).outcome =
      .panicked "invalid memory address or nil pointer dereference" ∧
    (∀ a, (Reconcile plainCodec (defaultReconciler emptyClient) testRequest []).outcome ≠
      .returned a) := by
  refine ⟨rfl, rfl, ?_, rfl, ?_, ?_⟩
  · rw [Reconcile_of_get_error_no_recorder plainCodec (defaultReconciler emptyClient)
      testRequest [] (.notFound "runner not found") rfl rfl]
  · rw [Reconcile_of_get_error_no_recorder plainCodec (defaultReconciler brokenClient)
      testRequest [] (.other "connection refused") rfl rfl]
  · intro a h
    rw [Reconcile_of_get_error_no_recorder plainCodec (defaultReconciler emptyClient)
      testRequest [] (.notFound "runner not found") rfl rfl] at h
    cases h

end DynamicWatcher
